import Mathlib

set_option autoImplicit false

namespace Lutris

/-! Shallow embedding of src/lutris/config.py, the layered configuration
resolver (class LutrisConfig).  Python dictionaries are modelled as
association lists whose operations mirror dict lookup, item assignment and
dict.update; YAML documents are modelled as an untyped value tree.  Stateful
methods become functions from the resolver state (and a storage model for the
YAML files on disk) to a new state; a Python exception is modelled as none in
an Option result. -/

/-- Untyped value tree standing for the data loaded from the YAML config
files: scalars, sequences and nested mappings. -/
inductive Val where
  | vnull : Val
  | vbool : Bool → Val
  | vint : Int → Val
  | vstr : String → Val
  | vlist : List Val → Val
  | vdict : List (String × Val) → Val

/-- Python truthiness (bool(v)) for the modelled values; used by the guards
if not config, if value, and by the falsy stripping in save. -/
def truthy : Val → Bool
  | .vnull => false
  | .vbool b => b
  | .vint n => n != 0
  | .vstr s => s != ""
  | .vlist xs => !xs.isEmpty
  | .vdict d => !d.isEmpty

/-- Dictionary lookup d.get(k) / d[k] on an association list: the first
binding of the key wins.  A Python dict never holds a key twice, so states
reached from real dicts have nodup keys and the first binding is the binding. -/
def assocFind? {α : Type} : List (String × α) → String → Option α
  | [], _ => none
  | (k, v) :: rest, key => if k = key then some v else assocFind? rest key

/-- Item assignment d[k] = v on an association list: replaces the value in
place when the key is present (keeping its position, as a Python dict does)
and appends the binding otherwise. -/
def assocInsert {α : Type} : List (String × α) → String → α → List (String × α)
  | [], key, v => [(key, v)]
  | (k, w) :: rest, key, v =>
    if k = key then (key, v) :: rest else (k, w) :: assocInsert rest key v

/-- Dictionary merge d.update(other): item assignment for every binding of
other, in order. -/
def assocUpdate {α : Type} (d other : List (String × α)) : List (String × α) :=
  other.foldl (fun acc kv => assocInsert acc kv.1 kv.2) d

/-- Keys of an association list. -/
def assocKeys {α : Type} (d : List (String × α)) : List String :=
  d.map Prod.fst

/-- Invariant of every association list that stands for a Python dict: no key
occurs twice. -/
def NodupKeys {α : Type} (d : List (String × α)) : Prop :=
  (assocKeys d).Nodup

/-- Raw config document of one level: a mapping from section name to a value
(normally itself a mapping). -/
abbrev Dict := List (String × Val)

/-- Enum ConfigLevel from config.py lines 15-19.  The string values of the
members (game, runner, system) double as section names in the documents. -/
inductive ConfigLevel where
  | GAME : ConfigLevel
  | RUNNER : ConfigLevel
  | SYSTEM : ConfigLevel
deriving DecidableEq

/-- Durable resources addressed by the resolver: system.yml, one file per
runner slug, one file per game config id (the os.path.join results of the
three path properties, lines 129-143). -/
inductive ConfigPath where
  | systemPath : ConfigPath
  | runnerPath : String → ConfigPath
  | gamePath : String → ConfigPath
deriving DecidableEq

/-- Durable storage: the YAML files on disk, already parsed.  none means the
file does not exist. -/
structure Storage where
  files : ConfigPath → Option Dict

/-- Writing a file (write_yaml_to_file). -/
def Storage.write (st : Storage) (p : ConfigPath) (d : Dict) : Storage :=
  ⟨fun q => if q = p then some d else st.files q⟩

/-- Deleting a file (os.remove). -/
def Storage.erase (st : Storage) (p : ConfigPath) : Storage :=
  ⟨fun q => if q = p then none else st.files q⟩

/-- Default of an option descriptor: a literal value or a zero-argument
callable whose evaluation may raise (config.py lines 281-288). -/
inductive DefaultSpec where
  | literal : Val → DefaultSpec
  | computed : (Unit → Except String Val) → DefaultSpec

/-- Option descriptor as consumed by options_as_dict: the option name and the
optional default entry of the params dict. -/
structure OptionDescr where
  option : String
  default : Option DefaultSpec

/-- External option-schema collaborators of options_as_dict (config.py lines
292-315): sysoptions.system_options, sysoptions.with_runner_overrides, and
the runner modules runner_options / game_options attributes reached through
import_runner.  runner_attr_options returns none when import_runner raises
InvalidRunnerError, in which case the source uses an empty collection. -/
structure Provider where
  system_options : List OptionDescr
  with_runner_overrides : String → List OptionDescr
  runner_attr_options : ConfigLevel → String → Option (List OptionDescr)

/-- State of a LutrisConfig instance (config.py lines 90-120).  The raw
section shortcuts raw_system_config, raw_runner_config and raw_game_config
are aliases of entries of the current raw layer in the source; here they are
the values those aliases denote after update_raw_config ran. -/
structure LutrisConfig where
  game_config_id : Option String
  runner_slug : Option String
  level : ConfigLevel
  game_level : Dict
  runner_level : Dict
  system_level : Dict
  game_config : Dict
  runner_config : Dict
  system_config : Dict
  raw_game_config : Val
  raw_runner_config : Val
  raw_system_config : Val
  raw_config : Dict

/-- Property system_config_path (always resolvable). -/
def LutrisConfig.system_config_path (_ : LutrisConfig) : Option ConfigPath :=
  some .systemPath

/-- Property runner_config_path: none when no runner slug is set. -/
def LutrisConfig.runner_config_path (c : LutrisConfig) : Option ConfigPath :=
  c.runner_slug.map .runnerPath

/-- Property game_config_path: none when no game config id is set. -/
def LutrisConfig.game_config_path (c : LutrisConfig) : Option ConfigPath :=
  c.game_config_id.map .gamePath

/-- Path consulted by get_config and save for a level (the if/elif chain of
get_config, lines 147-154; the raise ValueError branch for an invalid level
is unreachable here because ConfigLevel is a closed enum). -/
def configPathOf (c : LutrisConfig) : ConfigLevel → Option ConfigPath
  | .GAME => c.game_config_path
  | .RUNNER => c.runner_config_path
  | .SYSTEM => c.system_config_path

/-- Modelled from the spec: read_yaml_from_file of lutris/util/yaml.py is not
under src/.  Per the spec, absence of a resource is not an error and reads as
an empty mapping, and an unresolvable (None) path likewise yields an empty
mapping. -/
def read_yaml_from_file (st : Storage) : Option ConfigPath → Dict
  | none => []
  | some p => (st.files p).getD []

/-- Method get_config (lines 145-158): read the file of the given level. -/
def get_config (st : Storage) (c : LutrisConfig) (t : ConfigLevel) : Dict :=
  read_yaml_from_file st (configPathOf c t)

/-- Method options_as_dict (lines 292-315): pick the option list for the
level (system options, runner-augmented system options, or the runner module
attribute; empty when the runner slug is missing or the runner is invalid)
and turn it into a dict keyed by option name, a later duplicate overwriting
an earlier one. -/
def options_as_dict (p : Provider) (runner_slug : Option String)
    (options_type : ConfigLevel) : List (String × OptionDescr) :=
  let options : List OptionDescr :=
    if options_type = .SYSTEM then
      match runner_slug with
      | some slug => p.with_runner_overrides slug
      | none => p.system_options
    else
      match runner_slug with
      | none => []
      | some slug => (p.runner_attr_options options_type slug).getD []
  options.foldl (fun d opt => assocInsert d opt.option opt) []

/-- Evaluation of one default entry (lines 281-289): a literal value is used
as is; a callable is invoked, and an exception makes the option be skipped
(modelled as none). -/
def evalDefault : DefaultSpec → Option Val
  | .literal v => some v
  | .computed f =>
    match f () with
    | .ok v => some v
    | .error _ => none

/-- Loop body of get_defaults (lines 280-289): walk the options dict in
order, skip descriptors without a default entry, skip descriptors whose
callable default raises, and assign the rest. -/
def computeDefaults : List (String × OptionDescr) → Dict → Dict
  | [], defaults => defaults
  | (name, params) :: rest, defaults =>
    match params.default with
    | none => computeDefaults rest defaults
    | some spec =>
      match evalDefault spec with
      | none => computeDefaults rest defaults
      | some v => computeDefaults rest (assocInsert defaults name v)

/-- Method get_defaults (lines 276-290).  It always returns a mapping: a
raising callable default is caught inside the loop and never propagated. -/
def get_defaults (p : Provider) (runner_slug : Option String)
    (options_type : ConfigLevel) : Dict :=
  computeDefaults (options_as_dict p runner_slug options_type) []

/-- Guarded insertion of an empty section (the repeated pattern at lines
175-176, 182-185 and 192-197): when level.get(name) is None, that is when
the key is absent or bound to null, bind it to an empty mapping. -/
def ensureSection (d : Dict) (name : String) : Dict :=
  match assocFind? d name with
  | none => assocInsert d name (.vdict [])
  | some .vnull => assocInsert d name (.vdict [])
  | some _ => d

/-- Merge step dict.update(v) where v is a section value: succeeds when the
value is a mapping, raises otherwise (a key-value iterable argument of
dict.update is not singled out and is likewise treated as the error case). -/
def dictUpdateVal (d : Dict) (v : Val) : Option Dict :=
  match v with
  | .vdict d2 => some (assocUpdate d d2)
  | _ => none

/-- Method merge_env (lines 204-213): a falsy new_env is ignored; otherwise
the existing env entry of system_config (an empty mapping when absent) is
updated key by key with new_env and stored back under env.  A non-mapping on
either side makes the dict operations raise.  In the source existing_env is
an alias into whatever dict system_config.get returned and is mutated in
place; that extra mutation of the aliased object is not observable through
any operation modelled here. -/
def merge_env (sys_config : Dict) (new_env : Val) : Option Dict :=
  if truthy new_env = false then some sys_config
  else
    let existing_env : Val := (assocFind? sys_config "env").getD (.vdict [])
    match existing_env, new_env with
    | .vdict e, .vdict n =>
      some (assocInsert sys_config "env" (.vdict (assocUpdate e n)))
    | _, _ => none

/-- Method merge_to_system_config (lines 215-223): a falsy section is
ignored; otherwise, when the section has an env key, merge_env runs first,
and then the whole section is merged into system_config with dict.update --
which assigns the env key of the section again, wholesale. -/
def merge_to_system_config (sys_config : Dict) (config : Val) : Option Dict :=
  if truthy config = false then some sys_config
  else
    match config with
    | .vdict d => do
      let sys1 ←
        match assocFind? d "env" with
        | some e => merge_env sys_config e
        | none => some sys_config
      some (assocUpdate sys1 d)
    | _ => none

/-- Runner branch of update_cascaded_config (lines 181-189), entered when the
level is RUNNER or GAME and a runner slug is set: default the slug and system
sections of the runner raw layer, rebuild runner_config from the runner
defaults overridden by the slug section, and merge the system section into
system_config. -/
def runnerStage (p : Provider) (c : LutrisConfig) : Option LutrisConfig :=
  match c.level, c.runner_slug with
  | .RUNNER, some slug | .GAME, some slug => do
    let rl := ensureSection (ensureSection c.runner_level slug) "system"
    let runnerSec ← assocFind? rl slug
    let runnerConf ← dictUpdateVal (get_defaults p c.runner_slug .RUNNER) runnerSec
    let sysSec ← assocFind? rl "system"
    let sysConf ← merge_to_system_config c.system_config sysSec
    some { c with runner_level := rl, runner_config := runnerConf, system_config := sysConf }
  | _, _ => some c

/-- Game branch of update_cascaded_config (lines 191-202), entered when the
level is GAME and a runner slug is set: default the game, slug and system
sections of the game raw layer, rebuild game_config from the game defaults
overridden by the game section, override runner_config with the slug section
(without clearing it first), and merge the system section into
system_config. -/
def gameStage (p : Provider) (c : LutrisConfig) : Option LutrisConfig :=
  match c.level, c.runner_slug with
  | .GAME, some slug => do
    let gl := ensureSection (ensureSection (ensureSection c.game_level "game") slug) "system"
    let gameSec ← assocFind? gl "game"
    let gameConf ← dictUpdateVal (get_defaults p c.runner_slug .GAME) gameSec
    let runnerSec ← assocFind? gl slug
    let runnerConf ← dictUpdateVal c.runner_config runnerSec
    let sysSec ← assocFind? gl "system"
    let sysConf ← merge_to_system_config c.system_config sysSec
    some { c with game_level := gl, game_config := gameConf,
                  runner_config := runnerConf, system_config := sysConf }
  | _, _ => some c

/-- Method update_cascaded_config (lines 174-202): default the system section
of the system raw layer, rebuild system_config from the system defaults
overridden by that section, then run the runner and game branches. -/
def update_cascaded_config (p : Provider) (c : LutrisConfig) : Option LutrisConfig := do
  let sl := ensureSection c.system_level "system"
  let sysSec ← assocFind? sl "system"
  let sysConf ← dictUpdateVal (get_defaults p c.runner_slug .SYSTEM) sysSec
  let c1 := { c with system_level := sl, system_config := sysConf }
  let c2 ← runnerStage p c1
  gameStage p c2

/-- Name for the intermediate state after the system part of
update_cascaded_config (lines 175-179), given the system section sd it read;
used to decompose that method in the lemmas below. -/
def systemStageResult (p : Provider) (c : LutrisConfig) (sd : Dict) : LutrisConfig :=
  { c with
    system_level := ensureSection c.system_level "system",
    system_config := assocUpdate (get_defaults p c.runner_slug .SYSTEM) sd }

/-- Method update_raw_config (lines 225-241): select the raw layer of the
current level, then take the section shortcuts by plain indexing -- which
raises KeyError when the key is absent, in particular raw_config of the
runner slug when the slug is None.  The two level-membership conditionals of
the source are flattened into one branch per level, keeping the lookup
order: system section, then runner section, then game section. -/
def update_raw_config (c : LutrisConfig) : Option LutrisConfig :=
  match c.level with
  | .SYSTEM => do
    let rawSys ← assocFind? c.system_level "system"
    some { c with raw_system_config := rawSys, raw_config := c.system_level }
  | .RUNNER => do
    let rawSys ← assocFind? c.runner_level "system"
    let slug ← c.runner_slug
    let rawRunner ← assocFind? c.runner_level slug
    some { c with raw_system_config := rawSys, raw_runner_config := rawRunner,
                  raw_config := c.runner_level }
  | .GAME => do
    let rawSys ← assocFind? c.game_level "system"
    let slug ← c.runner_slug
    let rawRunner ← assocFind? c.game_level slug
    let rawGame ← assocFind? c.game_level "game"
    some { c with raw_system_config := rawSys, raw_runner_config := rawRunner,
                  raw_game_config := rawGame, raw_config := c.game_level }

/-- Load loop of initialize_config (lines 162-169): each in-memory raw layer
is updated with the content of its file (dict.update -- the in-memory
bindings absent from the file are kept, not dropped). -/
def loadLevels (st : Storage) (c : LutrisConfig) : LutrisConfig :=
  { c with
    game_level := assocUpdate c.game_level (get_config st c .GAME),
    runner_level := assocUpdate c.runner_level (get_config st c .RUNNER),
    system_level := assocUpdate c.system_level (get_config st c .SYSTEM) }

/-- Method initialize_config (lines 160-172): run the load loop, then
recompute the cascaded views and the raw shortcuts. -/
def initialize_config (p : Provider) (st : Storage) (c : LutrisConfig) :
    Option LutrisConfig := do
  let c2 ← update_cascaded_config p (loadLevels st c)
  update_raw_config c2

/-- State set up by the constructor before initialize_config runs (lines
96-118): identifiers stored, every layer and view empty. -/
def initialState (runner_slug game_config_id : Option String)
    (lvl : ConfigLevel) : LutrisConfig :=
  { game_config_id := game_config_id
    runner_slug := runner_slug
    level := lvl
    game_level := []
    runner_level := []
    system_level := []
    game_config := []
    runner_config := []
    system_config := []
    raw_game_config := .vdict []
    raw_runner_config := .vdict []
    raw_system_config := .vdict []
    raw_config := [] }

/-- Constructor of LutrisConfig (lines 90-120): store the identifiers, infer
the level when not given (a game config id means GAME, else a runner slug
means RUNNER, else SYSTEM), start from empty layers and views, and run
initialize_config. -/
def LutrisConfig.new (p : Provider) (st : Storage) (runner_slug : Option String)
    (game_config_id : Option String) (level : Option ConfigLevel) :
    Option LutrisConfig :=
  let lvl := level.getD
    (if game_config_id.isSome then .GAME
     else if runner_slug.isSome then .RUNNER
     else .SYSTEM)
  initialize_config p st (initialState runner_slug game_config_id lvl)

/-- Raw layer that save persists for the current level (the if/elif chain at
lines 253-261; the raise ValueError branch for a level outside the enum is
unreachable here). -/
def levelDict (c : LutrisConfig) : Dict :=
  match c.level with
  | .GAME => c.game_level
  | .RUNNER => c.runner_level
  | .SYSTEM => c.system_level

/-- Method save (lines 251-274): pick the raw layer and path of the current
level; when the path is unresolvable, log and return with storage and state
untouched; otherwise strip the top-level bindings with falsy values, write
the stripped document, and rerun initialize_config against the new
storage. -/
def save (p : Provider) (st : Storage) (c : LutrisConfig) :
    Option (Storage × LutrisConfig) :=
  let config := levelDict c
  match configPathOf c c.level with
  | none => some (st, c)
  | some path =>
    let config := config.filter (fun kv => truthy kv.2)
    let st1 := st.write path config
    match initialize_config p st1 c with
    | none => none
    | some c1 => some (st1, c1)

/-- Method remove (lines 243-249): when the game config file exists, delete
it; otherwise log and return.  path_exists of lutris/util/system.py is not
under src/; modelled from the spec, a missing resource (including an
unresolvable None path) makes remove a logged no-op. -/
def remove (st : Storage) (c : LutrisConfig) : Storage :=
  match c.game_config_path with
  | none => st
  | some path =>
    if (st.files path).isSome then st.erase path else st

/-- Section of the current raw layer that callers edit through the matching
raw shortcut: system at SYSTEM level, the runner slug at RUNNER level, game
at GAME level. -/
def currentSectionName (c : LutrisConfig) : Option String :=
  match c.level with
  | .SYSTEM => some "system"
  | .RUNNER => c.runner_slug
  | .GAME => some "game"

/-- Cascaded view matching the current level. -/
def currentCascaded (c : LutrisConfig) : Dict :=
  match c.level with
  | .SYSTEM => c.system_config
  | .RUNNER => c.runner_config
  | .GAME => c.game_config

/-! Concrete providers, storages and states used by witnesses and
counterexamples. -/

/-- Provider with no option descriptors at all. -/
def trivialProvider : Provider :=
  ⟨[], fun _ => [], fun _ _ => none⟩

/-- Provider whose system options hold one computed default that raises and
one literal default. -/
def witnessProvider : Provider :=
  ⟨[⟨"broken", some (.computed (fun _ => .error "boom"))⟩,
    ⟨"vsync", some (.literal (.vbool true))⟩],
   fun _ => [], fun _ _ => none⟩

/-- Storage with no files at all. -/
def emptyStorage : Storage := ⟨fun _ => none⟩

/-- Storage with a system-level env mapping A to 1 and a runner-level env
mapping B to 2, the scenario of the env-merge property. -/
def envStorage : Storage := ⟨fun q =>
  match q with
  | .systemPath => some [("system", .vdict [("env", .vdict [("A", .vstr "1")])])]
  | .runnerPath "r" => some [("system", .vdict [("env", .vdict [("B", .vstr "2")])])]
  | _ => none⟩

/-- Storage holding a fully populated game config file for id g. -/
def filledGameStorage : Storage := ⟨fun q =>
  match q with
  | .gamePath "g" => some [("game", .vdict [("x", .vstr "1")]),
                           ("system", .vdict []), ("runner", .vdict [])]
  | _ => none⟩

/-- Storage whose system file holds one empty (falsy) section named junk. -/
def junkStorage : Storage := ⟨fun q =>
  match q with
  | .systemPath => some [("junk", .vdict [])]
  | _ => none⟩

/-- Storage whose system file sets the option vsync to false, a falsy
value inside a non-empty section. -/
def vsyncStorage : Storage := ⟨fun q =>
  match q with
  | .systemPath => some [("system", .vdict [("vsync", .vbool false)])]
  | _ => none⟩

/-- System-level resolver holding one truthy option in its raw system
section, for the round-trip witness. -/
def roundtripState : LutrisConfig :=
  { initialState none none .SYSTEM with
    system_level := [("system", .vdict [("mykey", .vstr "val")])] }

/-- Result of saving roundtripState against the empty storage. -/
def roundtripSaved : Storage × LutrisConfig :=
  (save trivialProvider emptyStorage roundtripState).getD (emptyStorage, roundtripState)

/-- Fresh resolver built against the storage roundtripSaved wrote. -/
def roundtripFresh : LutrisConfig :=
  (LutrisConfig.new trivialProvider roundtripSaved.1 none none (some .SYSTEM)).getD
    roundtripState

/-- System-level resolver whose raw layer holds a falsy section named dead
next to a truthy system section. -/
def strippingState : LutrisConfig :=
  { initialState none none .SYSTEM with
    system_level := [("dead", .vnull), ("system", .vdict [("a", .vstr "1")])] }

/-- Result of saving strippingState against the empty storage. -/
def strippingSaved : Storage × LutrisConfig :=
  (save trivialProvider emptyStorage strippingState).getD (emptyStorage, strippingState)

/-- Game-level resolver whose game and runner raw layers both set the
option opt in the runner section of slug r. -/
def overrideState : LutrisConfig :=
  { initialState (some "r") (some "g") .GAME with
    game_level := [("game", .vdict []),
                   ("r", .vdict [("opt", .vstr "game-wins")]),
                   ("system", .vdict [])],
    runner_level := [("r", .vdict [("opt", .vstr "runner")]),
                     ("system", .vdict [])] }

/-- Cascade of overrideState. -/
def overrideCascaded : LutrisConfig :=
  (update_cascaded_config trivialProvider overrideState).getD overrideState

/-- Game-level resolver freshly initialized against the empty storage. -/
def gameInitState : LutrisConfig :=
  (initialize_config trivialProvider emptyStorage
    (initialState (some "r") (some "g") .GAME)).getD
    (initialState (some "r") (some "g") .GAME)

/-- System-level resolver constructed over junkStorage; its raw layer holds
the falsy junk section loaded from the file. -/
def junkState : LutrisConfig :=
  (LutrisConfig.new trivialProvider junkStorage none none none).getD
    (initialState none none .SYSTEM)

/-- Result of saving junkState. -/
def junkSaved : Storage × LutrisConfig :=
  (save trivialProvider junkStorage junkState).getD (junkStorage, junkState)

/-! Lemmas about the dictionary operations. -/

theorem assocFind?_insert_self {α : Type} (d : List (String × α)) (k : String) (v : α) :
    assocFind? (assocInsert d k v) k = some v := by
  induction d with
  | nil => simp [assocInsert, assocFind?]
  | cons hd tl ih =>
    obtain ⟨k0, v0⟩ := hd
    simp only [assocInsert]
    by_cases h0 : k0 = k
    · subst h0
      simp [assocFind?]
    · simp [assocFind?, h0, ih]

theorem assocFind?_insert_ne {α : Type} (d : List (String × α)) {k k' : String} (v : α)
    (h : k' ≠ k) : assocFind? (assocInsert d k v) k' = assocFind? d k' := by
  induction d with
  | nil => simp [assocInsert, assocFind?, Ne.symm h]
  | cons hd tl ih =>
    obtain ⟨k0, v0⟩ := hd
    simp only [assocInsert]
    by_cases h0 : k0 = k
    · subst h0
      simp [assocFind?, Ne.symm h]
    · simp [assocFind?, h0, ih]

theorem mem_assocKeys_iff {α : Type} (d : List (String × α)) (k : String) :
    k ∈ assocKeys d ↔ ∃ v, (k, v) ∈ d := by
  simp only [assocKeys, List.mem_map]
  constructor
  · rintro ⟨⟨a, b⟩, hm, hfst⟩
    cases hfst
    exact ⟨b, hm⟩
  · rintro ⟨v, hv⟩
    exact ⟨(k, v), hv, rfl⟩

theorem assocFind?_eq_none_iff {α : Type} (d : List (String × α)) (k : String) :
    assocFind? d k = none ↔ k ∉ assocKeys d := by
  induction d with
  | nil => simp [assocFind?, assocKeys]
  | cons hd tl ih =>
    obtain ⟨k0, v0⟩ := hd
    simp only [assocFind?, assocKeys, List.map_cons, List.mem_cons, not_or]
    by_cases h : k0 = k
    · subst h
      simp
    · simp only [if_neg h]
      rw [ih]
      simp only [assocKeys]
      exact ⟨fun hh => ⟨fun hc => h hc.symm, hh⟩, fun hh => hh.2⟩

theorem assocFind?_of_mem {α : Type} {d : List (String × α)} {k : String} {v : α}
    (hnd : NodupKeys d) (hm : (k, v) ∈ d) : assocFind? d k = some v := by
  induction d with
  | nil => cases hm
  | cons hd tl ih =>
    obtain ⟨k0, v0⟩ := hd
    simp only [NodupKeys, assocKeys, List.map_cons, List.nodup_cons] at hnd
    rcases List.mem_cons.mp hm with heq | htl
    · cases heq
      simp [assocFind?]
    · have hk : k0 ≠ k := by
        intro h
        subst h
        exact hnd.1 ((mem_assocKeys_iff tl k0).mpr ⟨v, htl⟩)
      simp only [assocFind?, if_neg hk]
      exact ih hnd.2 htl

theorem mem_unique_of_nodupKeys {α : Type} {d : List (String × α)} {k : String} {v w : α}
    (hnd : NodupKeys d) (hv : (k, v) ∈ d) (hw : (k, w) ∈ d) : v = w := by
  have h1 := assocFind?_of_mem hnd hv
  have h2 := assocFind?_of_mem hnd hw
  rw [h1] at h2
  exact Option.some.inj h2

theorem assocFind?_update_not_mem {α : Type} (d : List (String × α))
    {d2 : List (String × α)} {k : String} (h : k ∉ assocKeys d2) :
    assocFind? (assocUpdate d d2) k = assocFind? d k := by
  induction d2 generalizing d with
  | nil => rfl
  | cons hd tl ih =>
    obtain ⟨k0, v0⟩ := hd
    simp only [assocKeys, List.map_cons, List.mem_cons, not_or] at h
    show assocFind? (assocUpdate (assocInsert d k0 v0) tl) k = assocFind? d k
    rw [ih (assocInsert d k0 v0) (by simpa [assocKeys] using h.2),
      assocFind?_insert_ne d v0 h.1]

theorem assocFind?_update_of_mem {α : Type} (d : List (String × α))
    {d2 : List (String × α)} {k : String} {v : α}
    (hnd : NodupKeys d2) (hm : (k, v) ∈ d2) :
    assocFind? (assocUpdate d d2) k = some v := by
  induction d2 generalizing d with
  | nil => cases hm
  | cons hd tl ih =>
    obtain ⟨k0, v0⟩ := hd
    simp only [NodupKeys, assocKeys, List.map_cons, List.nodup_cons] at hnd
    rcases List.mem_cons.mp hm with heq | htl
    · cases heq
      show assocFind? (assocUpdate (assocInsert d k v) tl) k = some v
      rw [assocFind?_update_not_mem (assocInsert d k v) (by simpa [assocKeys] using hnd.1),
        assocFind?_insert_self]
    · exact ih (assocInsert d k0 v0) (by simpa [NodupKeys, assocKeys] using hnd.2) htl

theorem assocInsert_of_find? {α : Type} {d : List (String × α)} {k : String} {v : α}
    (h : assocFind? d k = some v) : assocInsert d k v = d := by
  induction d with
  | nil => simp [assocFind?] at h
  | cons hd tl ih =>
    obtain ⟨k0, v0⟩ := hd
    simp only [assocFind?] at h
    simp only [assocInsert]
    by_cases hk : k0 = k
    · subst hk
      simp only [if_pos rfl] at h
      simp [Option.some.inj h]
    · simp only [if_neg hk] at h
      simp [hk, ih h]

theorem assocUpdate_of_find? {α : Type} {d d2 : List (String × α)}
    (h : ∀ kv ∈ d2, assocFind? d kv.1 = some kv.2) : assocUpdate d d2 = d := by
  induction d2 with
  | nil => rfl
  | cons hd tl ih =>
    show assocUpdate (assocInsert d hd.1 hd.2) tl = d
    rw [assocInsert_of_find? (h hd (List.mem_cons_self hd tl))]
    exact ih (fun kv hkv => h kv (List.mem_cons_of_mem hd hkv))

theorem assocInsert_append {α : Type} {d : List (String × α)} {k : String} (v : α)
    (h : k ∉ assocKeys d) : assocInsert d k v = d ++ [(k, v)] := by
  induction d with
  | nil => rfl
  | cons hd tl ih =>
    obtain ⟨k0, v0⟩ := hd
    simp only [assocKeys, List.map_cons, List.mem_cons, not_or] at h
    simp only [assocInsert, if_neg (fun hh : k0 = k => h.1 hh.symm), List.cons_append,
      List.cons.injEq, true_and]
    exact ih (by simpa [assocKeys] using h.2)

theorem assocUpdate_append {α : Type} (d : List (String × α)) {d2 : List (String × α)}
    (hnd : NodupKeys d2) (hdisj : ∀ k ∈ assocKeys d2, k ∉ assocKeys d) :
    assocUpdate d d2 = d ++ d2 := by
  induction d2 generalizing d with
  | nil => simp [assocUpdate]
  | cons hd tl ih =>
    obtain ⟨k0, v0⟩ := hd
    have hnd0 : k0 ∉ assocKeys tl := by
      simpa [NodupKeys, assocKeys] using (List.nodup_cons.mp hnd).1
    have hndtl : NodupKeys tl := by
      simpa [NodupKeys, assocKeys] using (List.nodup_cons.mp hnd).2
    have hk0d : k0 ∉ assocKeys d := hdisj k0 (by simp [assocKeys])
    show assocUpdate (assocInsert d k0 v0) tl = d ++ (k0, v0) :: tl
    rw [assocInsert_append v0 hk0d]
    have hdisj2 : ∀ k ∈ assocKeys tl, k ∉ assocKeys (d ++ [(k0, v0)]) := by
      intro k hk
      have h1 : k ∉ assocKeys d := hdisj k (by
        simp only [assocKeys, List.map_cons, List.mem_cons]
        exact Or.inr (by simpa [assocKeys] using hk))
      have h2 : k ≠ k0 := fun hh => hnd0 (hh ▸ hk)
      simp only [assocKeys, List.map_append, List.mem_append, List.map_cons, List.map_nil,
        List.mem_singleton, not_or]
      exact ⟨by simpa [assocKeys] using h1, h2⟩
    rw [ih (d ++ [(k0, v0)]) hndtl hdisj2]
    simp

theorem assocUpdate_nil {α : Type} {d : List (String × α)} (hnd : NodupKeys d) :
    assocUpdate [] d = d := by
  rw [assocUpdate_append [] hnd (by simp [assocKeys])]
  simp

theorem nodupKeys_filter {α : Type} {d : List (String × α)} (p : String × α → Bool)
    (hnd : NodupKeys d) : NodupKeys (d.filter p) :=
  List.Nodup.sublist (List.Sublist.map Prod.fst (List.filter_sublist d)) hnd

theorem assocFind?_filter_none {α : Type} {d : List (String × α)} {k : String} {v : α}
    {p : String × α → Bool}
    (hnd : NodupKeys d) (hm : (k, v) ∈ d) (hv : p (k, v) = false) :
    assocFind? (d.filter p) k = none := by
  rw [assocFind?_eq_none_iff]
  intro hk
  obtain ⟨w, hw⟩ := (mem_assocKeys_iff _ _).mp hk
  have hwd : (k, w) ∈ d := List.mem_of_mem_filter hw
  have : v = w := mem_unique_of_nodupKeys hnd hm hwd
  subst this
  have := List.of_mem_filter hw
  rw [hv] at this
  cases this

theorem assocFind?_filter_some {α : Type} {d : List (String × α)} {k : String} {v : α}
    {p : String × α → Bool}
    (h : assocFind? d k = some v) (hp : p (k, v) = true) :
    assocFind? (d.filter p) k = some v := by
  induction d with
  | nil => simp [assocFind?] at h
  | cons hd tl ih =>
    obtain ⟨k0, v0⟩ := hd
    simp only [assocFind?] at h
    by_cases hk : k0 = k
    · subst hk
      simp only [if_pos rfl] at h
      cases Option.some.inj h
      simp [List.filter_cons, hp, assocFind?]
    · simp only [if_neg hk] at h
      rw [List.filter_cons]
      by_cases hh : p (k0, v0) = true
      · simp only [hh, if_pos trivial, assocFind?, if_neg hk]
        exact ih h
      · simp only [Bool.not_eq_true] at hh
        simp only [hh]
        simpa using ih h

/-! Lemmas about ensureSection. -/

theorem ensureSection_of_find? {d : Dict} {name : String} {v : Val}
    (h : assocFind? d name = some v) (hv : v ≠ .vnull) : ensureSection d name = d := by
  unfold ensureSection
  rw [h]
  cases v <;> simp_all

theorem assocFind?_ensureSection_ne {d : Dict} {name k : String} (h : k ≠ name) :
    assocFind? (ensureSection d name) k = assocFind? d k := by
  unfold ensureSection
  cases hf : assocFind? d name with
  | none => exact assocFind?_insert_ne d _ h
  | some v =>
    cases v <;> first
      | rfl
      | exact assocFind?_insert_ne d _ h

theorem assocFind?_ensureSection_of_find? {d : Dict} {name k : String} {v : Val}
    (h : assocFind? d k = some v) (hv : v ≠ .vnull) :
    assocFind? (ensureSection d name) k = some v := by
  by_cases hk : k = name
  · subst hk
    rw [ensureSection_of_find? h hv]
    exact h
  · rw [assocFind?_ensureSection_ne hk]
    exact h

theorem assocFind?_ensureSection_self_isSome (d : Dict) (name : String) :
    (assocFind? (ensureSection d name) name).isSome := by
  unfold ensureSection
  cases hf : assocFind? d name with
  | none => rw [assocFind?_insert_self]; rfl
  | some v =>
    cases v <;> first
      | (rw [assocFind?_insert_self]; rfl)
      | (rw [hf]; rfl)

/-! Inversion lemmas for the state-transforming methods. -/

theorem update_raw_config_preserves {c c' : LutrisConfig}
    (h : update_raw_config c = some c') :
    c'.level = c.level ∧ c'.runner_slug = c.runner_slug ∧
    c'.game_config_id = c.game_config_id ∧ c'.game_level = c.game_level ∧
    c'.runner_level = c.runner_level ∧ c'.system_level = c.system_level ∧
    c'.game_config = c.game_config ∧ c'.runner_config = c.runner_config ∧
    c'.system_config = c.system_config := by
  obtain ⟨id, slug, lvl, gl, rl, sl, gc, rc, sc, rgc, rrc, rsc, rawc⟩ := c
  cases lvl <;>
    simp only [update_raw_config, Option.bind_eq_bind, Option.bind_eq_some,
      Option.some.injEq] at h
  case GAME =>
    obtain ⟨rawSys, _, s, _, rawRunner, _, rawGame, _, hc⟩ := h
    subst hc
    simp
  case RUNNER =>
    obtain ⟨rawSys, _, s, _, rawRunner, _, hc⟩ := h
    subst hc
    simp
  case SYSTEM =>
    obtain ⟨rawSys, _, hc⟩ := h
    subst hc
    simp

theorem update_raw_config_raw {c c' : LutrisConfig}
    (h : update_raw_config c = some c') : c'.raw_config = levelDict c' := by
  obtain ⟨id, slug, lvl, gl, rl, sl, gc, rc, sc, rgc, rrc, rsc, rawc⟩ := c
  cases lvl <;>
    simp only [update_raw_config, Option.bind_eq_bind, Option.bind_eq_some,
      Option.some.injEq] at h
  case GAME =>
    obtain ⟨rawSys, _, s, _, rawRunner, _, rawGame, _, hc⟩ := h
    subst hc
    rfl
  case RUNNER =>
    obtain ⟨rawSys, _, s, _, rawRunner, _, hc⟩ := h
    subst hc
    rfl
  case SYSTEM =>
    obtain ⟨rawSys, _, hc⟩ := h
    subst hc
    rfl

theorem update_raw_config_shortcuts {c c' : LutrisConfig}
    (h : update_raw_config c = some c') :
    assocFind? c'.raw_config "system" = some c'.raw_system_config ∧
    (∀ s, c.runner_slug = some s → c.level ≠ .SYSTEM →
      assocFind? c'.raw_config s = some c'.raw_runner_config) ∧
    (c.level = .GAME → assocFind? c'.raw_config "game" = some c'.raw_game_config) := by
  obtain ⟨id, slug, lvl, gl, rl, sl, gc, rc, sc, rgc, rrc, rsc, rawc⟩ := c
  cases lvl <;>
    simp only [update_raw_config, Option.bind_eq_bind, Option.bind_eq_some,
      Option.some.injEq] at h
  case GAME =>
    obtain ⟨rawSys, hsys, s, hs, rawRunner, hrr, rawGame, hrg, hc⟩ := h
    subst hc hs
    refine ⟨hsys, ?_, fun _ => hrg⟩
    intro s' hs' _
    cases hs'
    exact hrr
  case RUNNER =>
    obtain ⟨rawSys, hsys, s, hs, rawRunner, hrr, hc⟩ := h
    subst hc hs
    refine ⟨hsys, ?_, fun hg => by cases hg⟩
    intro s' hs' _
    cases hs'
    exact hrr
  case SYSTEM =>
    obtain ⟨rawSys, hsys, hc⟩ := h
    subst hc
    exact ⟨hsys, fun s hs hne => absurd rfl hne, fun hg => by cases hg⟩

theorem update_raw_config_game_slug {c c' : LutrisConfig}
    (h : update_raw_config c = some c') (hl : c.level = .GAME) :
    c.runner_slug.isSome := by
  obtain ⟨id, slug, lvl, gl, rl, sl, gc, rc, sc, rgc, rrc, rsc, rawc⟩ := c
  cases hl
  simp only [update_raw_config, Option.bind_eq_bind, Option.bind_eq_some,
    Option.some.injEq] at h
  obtain ⟨rawSys, _, s, hs, _⟩ := h
  simp [hs]

theorem runnerStage_skip {p : Provider} {c : LutrisConfig}
    (h : c.level = .SYSTEM ∨ c.runner_slug = none) : runnerStage p c = some c := by
  obtain ⟨id, slug, lvl, gl, rl, sl, gc, rc, sc, rgc, rrc, rsc, rawc⟩ := c
  rcases h with h | h
  · cases h; cases slug <;> rfl
  · cases h; cases lvl <;> rfl

theorem gameStage_skip {p : Provider} {c : LutrisConfig}
    (h : c.level ≠ .GAME ∨ c.runner_slug = none) : gameStage p c = some c := by
  obtain ⟨id, slug, lvl, gl, rl, sl, gc, rc, sc, rgc, rrc, rsc, rawc⟩ := c
  rcases h with h | h
  · cases lvl <;> cases slug <;> first | rfl | exact absurd rfl h
  · cases h; cases lvl <;> rfl

theorem runnerStage_preserves {p : Provider} {c c' : LutrisConfig}
    (h : runnerStage p c = some c') :
    c'.level = c.level ∧ c'.runner_slug = c.runner_slug ∧
    c'.game_config_id = c.game_config_id ∧ c'.game_level = c.game_level ∧
    c'.system_level = c.system_level ∧ c'.game_config = c.game_config ∧
    (∀ k, k ≠ "system" → (∀ s, c.runner_slug = some s → k ≠ s) →
      assocFind? c'.runner_level k = assocFind? c.runner_level k) := by
  obtain ⟨id, slug, lvl, gl, rl, sl, gc, rc, sc, rgc, rrc, rsc, rawc⟩ := c
  cases lvl <;> cases slug
  case SYSTEM.none | SYSTEM.some =>
    cases h
    exact ⟨rfl, rfl, rfl, rfl, rfl, rfl, fun k _ _ => rfl⟩
  case RUNNER.none | GAME.none =>
    cases h
    exact ⟨rfl, rfl, rfl, rfl, rfl, rfl, fun k _ _ => rfl⟩
  case RUNNER.some s | GAME.some s =>
    simp only [runnerStage, Option.bind_eq_bind, Option.bind_eq_some,
      Option.some.injEq] at h
    obtain ⟨runnerSec, _, runnerConf, _, sysSec, _, sysConf, _, hc⟩ := h
    subst hc
    refine ⟨rfl, rfl, rfl, rfl, rfl, rfl, ?_⟩
    intro k hk1 hk2
    have hks : k ≠ s := hk2 s rfl
    show assocFind? (ensureSection (ensureSection rl s) "system") k = assocFind? rl k
    rw [assocFind?_ensureSection_ne hk1, assocFind?_ensureSection_ne hks]

theorem gameStage_preserves {p : Provider} {c c' : LutrisConfig}
    (h : gameStage p c = some c') :
    c'.level = c.level ∧ c'.runner_slug = c.runner_slug ∧
    c'.game_config_id = c.game_config_id ∧ c'.runner_level = c.runner_level ∧
    c'.system_level = c.system_level ∧
    (∀ k, k ≠ "system" → k ≠ "game" → (∀ s, c.runner_slug = some s → k ≠ s) →
      assocFind? c'.game_level k = assocFind? c.game_level k) := by
  obtain ⟨id, slug, lvl, gl, rl, sl, gc, rc, sc, rgc, rrc, rsc, rawc⟩ := c
  cases lvl <;> cases slug
  case SYSTEM.none | SYSTEM.some | RUNNER.none | RUNNER.some | GAME.none =>
    cases h
    exact ⟨rfl, rfl, rfl, rfl, rfl, fun k _ _ _ => rfl⟩
  case GAME.some s =>
    simp only [gameStage, Option.bind_eq_bind, Option.bind_eq_some,
      Option.some.injEq] at h
    obtain ⟨gameSec, _, gameConf, _, runnerSec, _, runnerConf, _, sysSec, _, sysConf, _, hc⟩ := h
    subst hc
    refine ⟨rfl, rfl, rfl, rfl, rfl, ?_⟩
    intro k hk1 hk2 hk3
    have hks : k ≠ s := hk3 s rfl
    show assocFind?
      (ensureSection (ensureSection (ensureSection gl "game") s) "system") k =
      assocFind? gl k
    rw [assocFind?_ensureSection_ne hk1, assocFind?_ensureSection_ne hks,
      assocFind?_ensureSection_ne hk2]

theorem runnerStage_runner_config {p : Provider} {c c' : LutrisConfig} {slug : String}
    {rd : Dict}
    (hlv : c.level = .RUNNER ∨ c.level = .GAME) (hs : c.runner_slug = some slug)
    (hsec : assocFind? c.runner_level slug = some (.vdict rd))
    (h : runnerStage p c = some c') :
    c'.runner_config = assocUpdate (get_defaults p (some slug) .RUNNER) rd := by
  obtain ⟨id, oslug, lvl, gl, rl, sl, gc, rc, sc, rgc, rrc, rsc, rawc⟩ := c
  cases hs
  have hrl : assocFind? (ensureSection (ensureSection rl slug) "system") slug =
      some (.vdict rd) := by
    apply assocFind?_ensureSection_of_find?
    · exact assocFind?_ensureSection_of_find? hsec (by intro hh; cases hh)
    · intro hh; cases hh
  rcases hlv with hlv | hlv <;> cases hlv <;>
    simp only [runnerStage, Option.bind_eq_bind, Option.bind_eq_some,
      Option.some.injEq] at h <;>
    obtain ⟨runnerSec, hrs, runnerConf, hrc, sysSec, _, sysConf, _, hc⟩ := h <;>
    subst hc <;>
    rw [hrl] at hrs <;>
    cases hrs <;>
    simp only [dictUpdateVal, Option.some.injEq] at hrc <;>
    exact hrc.symm

theorem gameStage_configs {p : Provider} {c c' : LutrisConfig} {slug : String}
    (hl : c.level = .GAME) (hs : c.runner_slug = some slug)
    (h : gameStage p c = some c') :
    (∀ gd : Dict, assocFind? c.game_level "game" = some (.vdict gd) →
      c'.game_config = assocUpdate (get_defaults p (some slug) .GAME) gd) ∧
    (∀ sd : Dict, assocFind? c.game_level slug = some (.vdict sd) →
      c'.runner_config = assocUpdate c.runner_config sd) := by
  obtain ⟨id, oslug, lvl, gl, rl, sl, gc, rc, sc, rgc, rrc, rsc, rawc⟩ := c
  cases hs
  cases hl
  simp only [gameStage, Option.bind_eq_bind, Option.bind_eq_some,
    Option.some.injEq] at h
  obtain ⟨gameSec, hgs, gameConf, hgc, runnerSec, hrs, runnerConf, hrc, sysSec, _,
    sysConf, _, hc⟩ := h
  subst hc
  constructor
  · intro gd hgd
    have hfind : assocFind?
        (ensureSection (ensureSection (ensureSection gl "game") slug) "system") "game" =
        some (.vdict gd) := by
      apply assocFind?_ensureSection_of_find?
      · apply assocFind?_ensureSection_of_find?
        · exact assocFind?_ensureSection_of_find? hgd (by intro hh; cases hh)
        · intro hh; cases hh
      · intro hh; cases hh
    rw [hfind] at hgs
    cases hgs
    simp only [dictUpdateVal, Option.some.injEq] at hgc
    exact hgc.symm
  · intro sd hsd
    have hfind : assocFind?
        (ensureSection (ensureSection (ensureSection gl "game") slug) "system") slug =
        some (.vdict sd) := by
      apply assocFind?_ensureSection_of_find?
      · apply assocFind?_ensureSection_of_find?
        · exact assocFind?_ensureSection_of_find? hsd (by intro hh; cases hh)
        · intro hh; cases hh
      · intro hh; cases hh
    rw [hfind] at hrs
    cases hrs
    simp only [dictUpdateVal, Option.some.injEq] at hrc
    exact hrc.symm

theorem runnerStage_runner_level {p : Provider} {c c' : LutrisConfig} {s : String}
    (hs : c.runner_slug = some s) (hlv : c.level = .RUNNER ∨ c.level = .GAME)
    (h : runnerStage p c = some c') :
    c'.runner_level = ensureSection (ensureSection c.runner_level s) "system" := by
  obtain ⟨id, oslug, lvl, gl, rl, sl, gc, rc, sc, rgc, rrc, rsc, rawc⟩ := c
  cases hs
  rcases hlv with hlv | hlv <;> cases hlv <;>
    simp only [runnerStage, Option.bind_eq_bind, Option.bind_eq_some,
      Option.some.injEq] at h <;>
    obtain ⟨runnerSec, _, runnerConf, _, sysSec, _, sysConf, _, hc⟩ := h <;>
    subst hc <;>
    rfl

theorem gameStage_game_level {p : Provider} {c c' : LutrisConfig} {s : String}
    (hs : c.runner_slug = some s) (hl : c.level = .GAME)
    (h : gameStage p c = some c') :
    c'.game_level =
      ensureSection (ensureSection (ensureSection c.game_level "game") s) "system" := by
  obtain ⟨id, oslug, lvl, gl, rl, sl, gc, rc, sc, rgc, rrc, rsc, rawc⟩ := c
  cases hs
  cases hl
  simp only [gameStage, Option.bind_eq_bind, Option.bind_eq_some,
    Option.some.injEq] at h
  obtain ⟨gameSec, _, gameConf, _, runnerSec, _, runnerConf, _, sysSec, _,
    sysConf, _, hc⟩ := h
  subst hc
  rfl

theorem assocFind?_ensureSection_isSome {d : Dict} {k : String} (n : String)
    (h : (assocFind? d k).isSome) :
    (assocFind? (ensureSection d n) k).isSome := by
  by_cases hk : k = n
  · subst hk
    exact assocFind?_ensureSection_self_isSome d k
  · rw [assocFind?_ensureSection_ne hk]
    exact h

theorem systemStageResult_level (p : Provider) (c : LutrisConfig) (sd : Dict) :
    (systemStageResult p c sd).level = c.level := rfl

theorem systemStageResult_runner_slug (p : Provider) (c : LutrisConfig) (sd : Dict) :
    (systemStageResult p c sd).runner_slug = c.runner_slug := rfl

theorem systemStageResult_game_config_id (p : Provider) (c : LutrisConfig) (sd : Dict) :
    (systemStageResult p c sd).game_config_id = c.game_config_id := rfl

theorem systemStageResult_game_level (p : Provider) (c : LutrisConfig) (sd : Dict) :
    (systemStageResult p c sd).game_level = c.game_level := rfl

theorem systemStageResult_runner_level (p : Provider) (c : LutrisConfig) (sd : Dict) :
    (systemStageResult p c sd).runner_level = c.runner_level := rfl

theorem systemStageResult_system_level (p : Provider) (c : LutrisConfig) (sd : Dict) :
    (systemStageResult p c sd).system_level = ensureSection c.system_level "system" := rfl

theorem systemStageResult_game_config (p : Provider) (c : LutrisConfig) (sd : Dict) :
    (systemStageResult p c sd).game_config = c.game_config := rfl

theorem systemStageResult_runner_config (p : Provider) (c : LutrisConfig) (sd : Dict) :
    (systemStageResult p c sd).runner_config = c.runner_config := rfl

theorem systemStageResult_system_config (p : Provider) (c : LutrisConfig) (sd : Dict) :
    (systemStageResult p c sd).system_config =
      assocUpdate (get_defaults p c.runner_slug .SYSTEM) sd := rfl

theorem update_cascaded_config_decomp {p : Provider} {c c' : LutrisConfig}
    (h : update_cascaded_config p c = some c') :
    ∃ (sd : Dict) (c2 : LutrisConfig),
      assocFind? (ensureSection c.system_level "system") "system" = some (.vdict sd) ∧
      runnerStage p (systemStageResult p c sd) = some c2 ∧
      gameStage p c2 = some c' := by
  simp only [update_cascaded_config, Option.bind_eq_bind, Option.bind_eq_some] at h
  obtain ⟨sysSec, hss, sysConf, hsc, c2, hrs, hgs⟩ := h
  cases sysSec
  case vnull => cases hsc
  case vbool b => cases hsc
  case vint n => cases hsc
  case vstr s => cases hsc
  case vlist l => cases hsc
  case vdict sd =>
    simp only [dictUpdateVal, Option.some.injEq] at hsc
    subst hsc
    exact ⟨sd, c2, hss, hrs, hgs⟩

theorem update_cascaded_config_preserves {p : Provider} {c c' : LutrisConfig}
    (h : update_cascaded_config p c = some c') :
    c'.level = c.level ∧ c'.runner_slug = c.runner_slug ∧
    c'.game_config_id = c.game_config_id ∧
    (∀ k, k ≠ "system" → assocFind? c'.system_level k = assocFind? c.system_level k) ∧
    (∀ k, k ≠ "system" → (∀ s, c.runner_slug = some s → k ≠ s) →
      assocFind? c'.runner_level k = assocFind? c.runner_level k) ∧
    (∀ k, k ≠ "system" → k ≠ "game" → (∀ s, c.runner_slug = some s → k ≠ s) →
      assocFind? c'.game_level k = assocFind? c.game_level k) := by
  obtain ⟨sd, c2, hss, hrs, hgs⟩ := update_cascaded_config_decomp h
  obtain ⟨hr1, hr2, hr3, hr4, hr5, hr6, hr7⟩ := runnerStage_preserves hrs
  obtain ⟨hg1, hg2, hg3, hg4, hg5, hg6⟩ := gameStage_preserves hgs
  refine ⟨by rw [hg1, hr1, systemStageResult_level],
    by rw [hg2, hr2, systemStageResult_runner_slug],
    by rw [hg3, hr3, systemStageResult_game_config_id], ?_, ?_, ?_⟩
  · intro k hk
    rw [hg5, hr5, systemStageResult_system_level]
    exact assocFind?_ensureSection_ne hk
  · intro k hk1 hk2
    have hk2' : ∀ s, (systemStageResult p c sd).runner_slug = some s → k ≠ s := by
      rw [systemStageResult_runner_slug]; exact hk2
    rw [hg4, hr7 k hk1 hk2', systemStageResult_runner_level]
  · intro k hk1 hk2 hk3
    have hk3' : ∀ s, c2.runner_slug = some s → k ≠ s := by
      rw [hr2, systemStageResult_runner_slug]; exact hk3
    rw [hg6 k hk1 hk2 hk3', hr4, systemStageResult_game_level]

theorem ucc_sections_present {p : Provider} {c c' : LutrisConfig}
    (h : update_cascaded_config p c = some c') :
    (assocFind? c'.system_level "system").isSome ∧
    (∀ s, c.runner_slug = some s → (c.level = .RUNNER ∨ c.level = .GAME) →
      (assocFind? c'.runner_level s).isSome ∧
      (assocFind? c'.runner_level "system").isSome) ∧
    (∀ s, c.runner_slug = some s → c.level = .GAME →
      (assocFind? c'.game_level "game").isSome ∧
      (assocFind? c'.game_level s).isSome ∧
      (assocFind? c'.game_level "system").isSome) := by
  obtain ⟨sd, c2, hss, hrs, hgs⟩ := update_cascaded_config_decomp h
  obtain ⟨hr1, hr2, hr3, hr4, hr5, hr6, hr7⟩ := runnerStage_preserves hrs
  obtain ⟨hg1, hg2, hg3, hg4, hg5, hg6⟩ := gameStage_preserves hgs
  refine ⟨?_, ?_, ?_⟩
  · rw [hg5, hr5, systemStageResult_system_level]
    exact assocFind?_ensureSection_self_isSome _ _
  · intro s hs hlv
    have hs1 : (systemStageResult p c sd).runner_slug = some s := by
      rw [systemStageResult_runner_slug]; exact hs
    have hlv1 : (systemStageResult p c sd).level = .RUNNER ∨
        (systemStageResult p c sd).level = .GAME := by
      rw [systemStageResult_level]; exact hlv
    rw [hg4, runnerStage_runner_level hs1 hlv1 hrs, systemStageResult_runner_level]
    constructor
    · exact assocFind?_ensureSection_isSome "system"
        (assocFind?_ensureSection_self_isSome _ _)
    · exact assocFind?_ensureSection_self_isSome _ _
  · intro s hs hl
    have hs2 : c2.runner_slug = some s := by
      rw [hr2, systemStageResult_runner_slug]; exact hs
    have hl2 : c2.level = .GAME := by
      rw [hr1, systemStageResult_level]; exact hl
    rw [gameStage_game_level hs2 hl2 hgs, hr4, systemStageResult_game_level]
    refine ⟨?_, ?_, ?_⟩
    · exact assocFind?_ensureSection_isSome "system"
        (assocFind?_ensureSection_isSome s
          (assocFind?_ensureSection_self_isSome _ _))
    · exact assocFind?_ensureSection_isSome "system"
        (assocFind?_ensureSection_self_isSome _ _)
    · exact assocFind?_ensureSection_self_isSome _ _

theorem ucc_system_config_system {p : Provider} {c c' : LutrisConfig} {sd : Dict}
    (hl : c.level = .SYSTEM)
    (hsec : assocFind? c.system_level "system" = some (.vdict sd))
    (h : update_cascaded_config p c = some c') :
    c'.system_config = assocUpdate (get_defaults p c.runner_slug .SYSTEM) sd := by
  obtain ⟨sd', c2, hss, hrs, hgs⟩ := update_cascaded_config_decomp h
  have hens : ensureSection c.system_level "system" = c.system_level :=
    ensureSection_of_find? hsec (by intro hh; cases hh)
  rw [hens, hsec] at hss
  cases hss
  rw [runnerStage_skip (Or.inl (by rw [systemStageResult_level]; exact hl))] at hrs
  cases hrs
  rw [gameStage_skip (Or.inl (by
    rw [systemStageResult_level, hl]; intro hh; cases hh))] at hgs
  cases hgs
  rw [systemStageResult_system_config]

theorem ucc_runner_config_runner {p : Provider} {c c' : LutrisConfig} {s : String}
    {rd : Dict}
    (hl : c.level = .RUNNER) (hs : c.runner_slug = some s)
    (hsec : assocFind? c.runner_level s = some (.vdict rd))
    (h : update_cascaded_config p c = some c') :
    c'.runner_config = assocUpdate (get_defaults p (some s) .RUNNER) rd := by
  obtain ⟨sd, c2, hss, hrs, hgs⟩ := update_cascaded_config_decomp h
  have hc2 : c2.runner_config = assocUpdate (get_defaults p (some s) .RUNNER) rd :=
    runnerStage_runner_config
      (Or.inl (by rw [systemStageResult_level]; exact hl))
      (by rw [systemStageResult_runner_slug]; exact hs)
      (by rw [systemStageResult_runner_level]; exact hsec) hrs
  have hl2 : c2.level = .RUNNER := by
    rw [(runnerStage_preserves hrs).1, systemStageResult_level]; exact hl
  rw [gameStage_skip (Or.inl (by rw [hl2]; intro hh; cases hh))] at hgs
  cases hgs
  exact hc2

theorem ucc_game_configs {p : Provider} {c c' : LutrisConfig} {s : String}
    (hl : c.level = .GAME) (hs : c.runner_slug = some s)
    (h : update_cascaded_config p c = some c') :
    (∀ gd : Dict, assocFind? c.game_level "game" = some (.vdict gd) →
      c'.game_config = assocUpdate (get_defaults p (some s) .GAME) gd) ∧
    (∀ rd gd : Dict, assocFind? c.runner_level s = some (.vdict rd) →
      assocFind? c.game_level s = some (.vdict gd) →
      c'.runner_config =
        assocUpdate (assocUpdate (get_defaults p (some s) .RUNNER) rd) gd) := by
  obtain ⟨sd, c2, hss, hrs, hgs⟩ := update_cascaded_config_decomp h
  obtain ⟨hr1, hr2, hr3, hr4, hr5, hr6, hr7⟩ := runnerStage_preserves hrs
  have hs2 : c2.runner_slug = some s := by
    rw [hr2, systemStageResult_runner_slug]; exact hs
  have hl2 : c2.level = .GAME := by
    rw [hr1, systemStageResult_level]; exact hl
  obtain ⟨hgame, hrunner⟩ := gameStage_configs hl2 hs2 hgs
  constructor
  · intro gd hgd
    exact hgame gd (by rw [hr4, systemStageResult_game_level]; exact hgd)
  · intro rd gd hrd hgd
    have hc2 : c2.runner_config = assocUpdate (get_defaults p (some s) .RUNNER) rd :=
      runnerStage_runner_config
        (Or.inr (by rw [systemStageResult_level]; exact hl))
        (by rw [systemStageResult_runner_slug]; exact hs)
        (by rw [systemStageResult_runner_level]; exact hrd) hrs
    rw [hrunner gd (by rw [hr4, systemStageResult_game_level]; exact hgd), hc2]

theorem initialize_config_decomp {p : Provider} {st : Storage} {c c' : LutrisConfig}
    (h : initialize_config p st c = some c') :
    ∃ c2, update_cascaded_config p (loadLevels st c) = some c2 ∧
      update_raw_config c2 = some c' := by
  simpa only [initialize_config, Option.bind_eq_bind, Option.bind_eq_some] using h

theorem initialize_config_ids {p : Provider} {st : Storage} {c c' : LutrisConfig}
    (h : initialize_config p st c = some c') :
    c'.level = c.level ∧ c'.runner_slug = c.runner_slug ∧
    c'.game_config_id = c.game_config_id := by
  obtain ⟨c2, h1, h2⟩ := initialize_config_decomp h
  obtain ⟨hu1, hu2, hu3, _⟩ := update_cascaded_config_preserves h1
  obtain ⟨hw1, hw2, hw3, _⟩ := update_raw_config_preserves h2
  exact ⟨by rw [hw1, hu1]; rfl, by rw [hw2, hu2]; rfl, by rw [hw3, hu3]; rfl⟩

theorem configPathOf_congr {c c' : LutrisConfig}
    (h1 : c'.runner_slug = c.runner_slug) (h2 : c'.game_config_id = c.game_config_id)
    (t : ConfigLevel) : configPathOf c' t = configPathOf c t := by
  cases t <;> simp [configPathOf, LutrisConfig.game_config_path,
    LutrisConfig.runner_config_path, LutrisConfig.system_config_path, h1, h2]

theorem save_unresolvable {p : Provider} {st : Storage} {c : LutrisConfig}
    (h : configPathOf c c.level = none) : save p st c = some (st, c) := by
  unfold save
  rw [h]

theorem save_resolvable {p : Provider} {st : Storage} {c : LutrisConfig}
    {st' : Storage} {c' : LutrisConfig} {path : ConfigPath}
    (hpath : configPathOf c c.level = some path)
    (h : save p st c = some (st', c')) :
    st' = st.write path ((levelDict c).filter (fun kv => truthy kv.2)) ∧
    initialize_config p
      (st.write path ((levelDict c).filter (fun kv => truthy kv.2))) c = some c' := by
  simp only [save, hpath] at h
  cases hinit : initialize_config p
      (st.write path ((levelDict c).filter (fun kv => truthy kv.2))) c with
  | none => rw [hinit] at h; cases h
  | some c1 =>
    rw [hinit] at h
    cases h
    exact ⟨rfl, rfl⟩

theorem storage_write_read (st : Storage) (q : ConfigPath) (d : Dict) :
    (st.write q d).files q = some d := by
  simp [Storage.write]

/-! Lemmas about the defaults computation. -/

theorem mem_assocKeys_insert {α : Type} (d : List (String × α)) (k : String) (v : α)
    (a : String) :
    a ∈ assocKeys (assocInsert d k v) ↔ a ∈ assocKeys d ∨ a = k := by
  induction d with
  | nil => simp [assocInsert, assocKeys]
  | cons hd tl ih =>
    obtain ⟨k0, v0⟩ := hd
    simp only [assocInsert]
    by_cases h0 : k0 = k
    · subst h0
      rw [if_pos rfl]
      simp only [assocKeys, List.map_cons, List.mem_cons]
      tauto
    · rw [if_neg h0]
      simp only [assocKeys, List.map_cons, List.mem_cons]
      rw [show (a ∈ List.map Prod.fst (assocInsert tl k v)) =
        (a ∈ assocKeys (assocInsert tl k v)) from rfl, ih]
      simp only [assocKeys]
      tauto

theorem nodupKeys_assocInsert {α : Type} {d : List (String × α)} (k : String) (v : α)
    (hnd : NodupKeys d) : NodupKeys (assocInsert d k v) := by
  induction d with
  | nil => simp [NodupKeys, assocInsert, assocKeys]
  | cons hd tl ih =>
    obtain ⟨k0, v0⟩ := hd
    have h1 : k0 ∉ assocKeys tl := by
      simpa [NodupKeys, assocKeys] using (List.nodup_cons.mp hnd).1
    have h2 : NodupKeys tl := by
      simpa [NodupKeys, assocKeys] using (List.nodup_cons.mp hnd).2
    simp only [assocInsert]
    by_cases h0 : k0 = k
    · subst h0
      rw [if_pos rfl]
      simpa [NodupKeys, assocKeys] using hnd
    · rw [if_neg h0]
      simp only [NodupKeys, assocKeys, List.map_cons, List.nodup_cons]
      constructor
      · intro hc
        rcases (mem_assocKeys_insert tl k v k0).mp hc with hc' | hc'
        · exact h1 hc'
        · exact h0 hc'
      · exact ih h2

theorem nodupKeys_optsToDict (l : List OptionDescr) :
    NodupKeys (l.foldl (fun d opt => assocInsert d opt.option opt) []) := by
  suffices h : ∀ acc, NodupKeys acc →
      NodupKeys (l.foldl (fun d opt => assocInsert d opt.option opt) acc) by
    exact h [] (by simp [NodupKeys, assocKeys])
  induction l with
  | nil => intro acc hacc; exact hacc
  | cons hd tl ih =>
    intro acc hacc
    exact ih _ (nodupKeys_assocInsert _ _ hacc)

theorem nodupKeys_options_as_dict (p : Provider) (slug : Option String)
    (t : ConfigLevel) : NodupKeys (options_as_dict p slug t) := by
  unfold options_as_dict
  exact nodupKeys_optsToDict _

theorem computeDefaults_find? :
    ∀ (L : List (String × OptionDescr)) (acc : Dict) (k : String), NodupKeys L →
    assocFind? (computeDefaults L acc) k =
      ((assocFind? L k).bind (fun params => params.default.bind evalDefault)).elim
        (assocFind? acc k) some := by
  intro L
  induction L with
  | nil => intro acc k _; simp [computeDefaults, assocFind?]
  | cons hd tl ih =>
    intro acc k hnd
    obtain ⟨name, params⟩ := hd
    have h1 : name ∉ assocKeys tl := by
      simpa [NodupKeys, assocKeys] using (List.nodup_cons.mp hnd).1
    have h2 : NodupKeys tl := by
      simpa [NodupKeys, assocKeys] using (List.nodup_cons.mp hnd).2
    have htl : assocFind? tl name = none := (assocFind?_eq_none_iff tl name).mpr h1
    simp only [computeDefaults]
    cases hdef : params.default with
    | none =>
      dsimp only
      rw [ih acc k h2]
      simp only [assocFind?]
      by_cases hk : name = k
      · subst hk
        simp [htl, hdef]
      · simp [hk]
    | some spec =>
      dsimp only
      cases heval : evalDefault spec with
      | none =>
        dsimp only
        rw [ih acc k h2]
        simp only [assocFind?]
        by_cases hk : name = k
        · subst hk
          simp [htl, hdef, heval]
        · simp [hk]
      | some v =>
        dsimp only
        rw [ih _ k h2]
        simp only [assocFind?]
        by_cases hk : name = k
        · subst hk
          simp [htl, hdef, heval, assocFind?_insert_self]
        · rw [assocFind?_insert_ne acc v (fun hh : k = name => hk hh.symm)]
          simp [hk]

theorem get_defaults_find? (p : Provider) (slug : Option String) (t : ConfigLevel)
    (k : String) :
    assocFind? (get_defaults p slug t) k =
      ((assocFind? (options_as_dict p slug t) k).bind
        (fun params => params.default.bind evalDefault)).elim none some := by
  unfold get_defaults
  rw [computeDefaults_find? _ _ _ (nodupKeys_options_as_dict p slug t)]
  rfl

theorem get_config_write_self {st : Storage} {c : LutrisConfig} {path : ConfigPath}
    {d : Dict} (t : ConfigLevel) (hpath : configPathOf c t = some path) :
    get_config (st.write path d) c t = d := by
  unfold get_config
  rw [hpath]
  simp [read_yaml_from_file, storage_write_read]

/-! The claims. -/

/-- C1: the claim states that cascading merges the env sub-mapping key by
key, so that with system-level env mapping A to 1 and runner-level env
mapping B to 2 a Game-level cascade ends with both keys.  The code does call
merge_env, but merge_to_system_config then runs dict.update with the whole
lower section, whose env entry overwrites the merged mapping wholesale: the
cascaded env holds only the runner-level key B.  This theorem evaluates the
construction at exactly the scenario of the claim. -/
theorem c1_env_merge_lost :
    (LutrisConfig.new trivialProvider envStorage (some "r") (some "g") none).map
      (fun c => assocFind? c.system_config "env") =
    some (some (.vdict [("B", .vstr "2")])) := rfl

/-- C3: the claim states that constructing with a game-config identifier but
no runner identifier succeeds.  It does not: update_raw_config indexes the
game raw layer with the system key (absent when the file is missing) and
with the runner slug (None), so construction raises KeyError, both on an
empty storage and on a storage holding a fully populated game file. -/
theorem c3_game_without_runner_construction_fails :
    LutrisConfig.new trivialProvider emptyStorage none (some "g") none = none ∧
    LutrisConfig.new trivialProvider filledGameStorage none (some "g") none = none :=
  ⟨rfl, rfl⟩

/-- C2 counterexample: the system file holds one falsy section named junk;
after construction and save, the persisted document no longer holds junk,
yet the reloaded in-memory raw layer still maps junk to the empty mapping --
the claim said the stripped key is absent from the reloaded layer. -/
theorem c2_stripped_key_retained_counterexample :
    ((LutrisConfig.new trivialProvider junkStorage none none none).bind
      (fun c => save trivialProvider junkStorage c)).map
      (fun r => (assocFind? r.2.system_level "junk",
                 (r.1.files .systemPath).map (fun d => assocFind? d "junk"))) =
    some (some (.vdict []), some none) := rfl

/-- C4 counterexample: the raw system section maps vsync to false, a falsy
value.  The claim says falsy entries are dropped on save, but stripping only
applies to whole top-level sections: the non-empty section survives intact
and a fresh resolver still reads vsync as false from the cascaded view. -/
theorem c4_falsy_entry_not_dropped_counterexample :
    (((LutrisConfig.new trivialProvider vsyncStorage none none none).bind
        (fun c => save trivialProvider vsyncStorage c)).bind
      (fun r => LutrisConfig.new trivialProvider r.1 none none none)).map
      (fun c2 => assocFind? c2.system_config "vsync") =
    some (some (.vbool false)) := rfl

/-- C5: for a Game-level resolver with a runner slug, an option key present
in both the game raw layer runner section and the runner raw layer runner
section resolves in the cascaded runner_config to the game-layer value. -/
theorem c5_game_overrides_runner {p : Provider} {c c' : LutrisConfig}
    {slug k : String} {gd rd : Dict} {v : Val}
    (hl : c.level = .GAME) (hs : c.runner_slug = some slug)
    (hgd : assocFind? c.game_level slug = some (.vdict gd))
    (hrd : assocFind? c.runner_level slug = some (.vdict rd))
    (hnd : NodupKeys gd) (hmg : (k, v) ∈ gd) (_hmr : k ∈ assocKeys rd)
    (h : update_cascaded_config p c = some c') :
    assocFind? c'.runner_config k = some v := by
  rw [(ucc_game_configs hl hs h).2 rd gd hrd hgd]
  exact assocFind?_update_of_mem _ hnd hmg

/-- C5 witness: a concrete Game-level state where the option opt is set both
in the game raw layer (game-wins) and in the runner raw layer (runner); the
cascade resolves it to game-wins. -/
theorem c5_game_overrides_runner_witness :
    overrideState.level = .GAME ∧ overrideState.runner_slug = some "r" ∧
    update_cascaded_config trivialProvider overrideState = some overrideCascaded ∧
    assocFind? overrideCascaded.runner_config "opt" = some (.vstr "game-wins") := by
  have hgd : assocFind? overrideState.game_level "r" =
      some (.vdict [("opt", .vstr "game-wins")]) := rfl
  have hrd : assocFind? overrideState.runner_level "r" =
      some (.vdict [("opt", .vstr "runner")]) := rfl
  have h : update_cascaded_config trivialProvider overrideState =
      some overrideCascaded := rfl
  exact ⟨rfl, rfl, h,
    c5_game_overrides_runner rfl rfl hgd hrd
      (by simp [NodupKeys, assocKeys])
      (List.mem_singleton.mpr rfl)
      (List.mem_singleton.mpr rfl)
      h⟩

/-- C6: save on a resolver whose durable path is unresolvable (Runner level
with no runner slug, or Game level with no game-config id) logs a warning
and returns, leaving storage and the whole in-memory state unchanged. -/
theorem c6_save_unresolvable_noop {p : Provider} {st : Storage} {c : LutrisConfig}
    (h : (c.level = .RUNNER ∧ c.runner_slug = none) ∨
         (c.level = .GAME ∧ c.game_config_id = none)) :
    save p st c = some (st, c) := by
  apply save_unresolvable
  rcases h with ⟨h1, h2⟩ | ⟨h1, h2⟩ <;> rw [h1] <;>
    simp [configPathOf, LutrisConfig.runner_config_path,
      LutrisConfig.game_config_path, h2]

/-- C6 witness: a Runner-level resolver with no slug. -/
theorem c6_save_unresolvable_noop_witness :
    ((initialState none none ConfigLevel.RUNNER).level = ConfigLevel.RUNNER ∧
      (initialState none none ConfigLevel.RUNNER).runner_slug = none) ∧
    save trivialProvider emptyStorage (initialState none none ConfigLevel.RUNNER) =
      some (emptyStorage, initialState none none ConfigLevel.RUNNER) :=
  ⟨⟨rfl, rfl⟩, c6_save_unresolvable_noop (Or.inl ⟨rfl, rfl⟩)⟩

/-- C8: remove deletes exactly the Game-level file of the current
game-config id -- every other path reads as before, a missing file (or an
unset id) makes it a no-op, and the operation is total (never raises). -/
theorem c8_remove_only_current_game_file (st : Storage) (c : LutrisConfig)
    (q : ConfigPath) :
    (remove st c).files q =
      if c.game_config_path = some q then none else st.files q := by
  unfold remove
  cases hp : c.game_config_path with
  | none => simp
  | some path =>
    dsimp only
    by_cases hiq : (st.files path).isSome
    · rw [if_pos hiq]
      show (if q = path then none else st.files q) = _
      by_cases hq : q = path
      · subst hq
        simp
      · rw [if_neg hq, if_neg (by simp; exact fun hh => hq hh.symm)]
    · rw [if_neg hiq]
      by_cases hq : q = path
      · subst hq
        rw [if_pos rfl]
        exact Option.not_isSome_iff_eq_none.mp hiq
      · rw [if_neg (by simp; exact fun hh => hq hh.symm)]

/-- C9: a raising computed default is caught inside get_defaults: the option
is omitted from the returned mapping while every other option keeps its
default, and the call itself is total by construction (it returns a mapping,
never propagating the exception). -/
theorem c9_default_errors_nonfatal {p : Provider} {slug : Option String}
    {t : ConfigLevel} {o1 o2 : String} {d1 d2 : OptionDescr}
    {f : Unit → Except String Val} {e : String} {v : Val}
    (h1 : assocFind? (options_as_dict p slug t) o1 = some d1)
    (hd1 : d1.default = some (.computed f)) (hf : f () = .error e)
    (h2 : assocFind? (options_as_dict p slug t) o2 = some d2)
    (hd2 : d2.default = some (.literal v)) :
    assocFind? (get_defaults p slug t) o1 = none ∧
    assocFind? (get_defaults p slug t) o2 = some v := by
  constructor
  · rw [get_defaults_find?, h1]
    simp [hd1, evalDefault, hf]
  · rw [get_defaults_find?, h2]
    simp [hd2, evalDefault]

/-- C9 witness: a provider whose system options hold the failing computed
default broken and the literal default vsync. -/
theorem c9_default_errors_nonfatal_witness :
    assocFind? (get_defaults witnessProvider none .SYSTEM) "broken" = none ∧
    assocFind? (get_defaults witnessProvider none .SYSTEM) "vsync" =
      some (.vbool true) := by
  have h1 : assocFind? (options_as_dict witnessProvider none .SYSTEM) "broken" =
      some ⟨"broken", some (.computed (fun _ => Except.error "boom"))⟩ := rfl
  have hd1 : (⟨"broken", some (.computed (fun _ => Except.error "boom"))⟩ :
      OptionDescr).default = some (.computed (fun _ => Except.error "boom")) := rfl
  have hf : (fun _ => (Except.error "boom" : Except String Val)) () =
      .error "boom" := rfl
  have h2 : assocFind? (options_as_dict witnessProvider none .SYSTEM) "vsync" =
      some ⟨"vsync", some (.literal (.vbool true))⟩ := rfl
  have hd2 : (⟨"vsync", some (.literal (.vbool true))⟩ : OptionDescr).default =
      some (.literal (.vbool true)) := rfl
  exact c9_default_errors_nonfatal h1 hd1 hf h2 hd2

/-- C10: initialization mutates the raw layers in place: after
initialize_config, the consulted sections exist as keys of the raw layers
(system in the system layer; the slug and system sections in the runner
layer at Runner or Game level; the game, slug and system sections in the
game layer at Game level), raw_config is the current raw layer, and the
system shortcut exposes the materialized section. -/
theorem c10_sections_materialized {p : Provider} {st : Storage}
    {c c' : LutrisConfig} (h : initialize_config p st c = some c') :
    (assocFind? c'.system_level "system").isSome ∧
    (∀ s, c.runner_slug = some s → (c.level = .RUNNER ∨ c.level = .GAME) →
      (assocFind? c'.runner_level s).isSome ∧
      (assocFind? c'.runner_level "system").isSome) ∧
    (∀ s, c.runner_slug = some s → c.level = .GAME →
      (assocFind? c'.game_level "game").isSome ∧
      (assocFind? c'.game_level s).isSome ∧
      (assocFind? c'.game_level "system").isSome) ∧
    c'.raw_config = levelDict c' ∧
    assocFind? c'.raw_config "system" = some c'.raw_system_config := by
  obtain ⟨c2, hucc, hraw⟩ := initialize_config_decomp h
  obtain ⟨hw1, hw2, hw3, hwgl, hwrl, hwsl, _, _, _⟩ := update_raw_config_preserves hraw
  obtain ⟨hs1, hs2, hs3⟩ := ucc_sections_present hucc
  refine ⟨?_, ?_, ?_, update_raw_config_raw hraw, (update_raw_config_shortcuts hraw).1⟩
  · rw [hwsl]
    exact hs1
  · intro s hs hlv
    rw [hwrl]
    exact hs2 s hs hlv
  · intro s hs hlv
    rw [hwgl]
    exact hs3 s hs hlv

/-- C10 witness: a Game-level resolver with slug r and id g initialized
against the empty storage; every consulted section got materialized. -/
theorem c10_sections_materialized_witness :
    initialize_config trivialProvider emptyStorage
      (initialState (some "r") (some "g") .GAME) = some gameInitState ∧
    (assocFind? gameInitState.system_level "system").isSome ∧
    (assocFind? gameInitState.runner_level "r").isSome ∧
    (assocFind? gameInitState.game_level "game").isSome ∧
    (assocFind? gameInitState.game_level "r").isSome ∧
    gameInitState.raw_config = levelDict gameInitState := by
  have h : initialize_config trivialProvider emptyStorage
      (initialState (some "r") (some "g") .GAME) = some gameInitState := rfl
  obtain ⟨w1, w2, w3, w4, w5⟩ := c10_sections_materialized h
  exact ⟨h, w1, (w2 "r" rfl (Or.inr rfl)).1, (w3 "r" rfl rfl).1,
    (w3 "r" rfl rfl).2.1, w4⟩

/-- C7: a fresh read from storage of the current level right after save holds
no key whose in-memory value was falsy at save time: a resolvable path gets
the falsy-stripped document written, and an unresolvable path reads as an
empty mapping. -/
theorem c7_saved_storage_has_no_falsy_keys {p : Provider} {st : Storage}
    {c : LutrisConfig} {st' : Storage} {c' : LutrisConfig} {k : String} {v : Val}
    (hsave : save p st c = some (st', c'))
    (hnd : NodupKeys (levelDict c)) (hm : (k, v) ∈ levelDict c)
    (hv : truthy v = false) :
    assocFind? (get_config st' c' c'.level) k = none := by
  cases hpath : configPathOf c c.level with
  | none =>
    rw [save_unresolvable hpath] at hsave
    cases hsave
    show assocFind? (get_config st c c.level) k = none
    unfold get_config
    rw [hpath]
    rfl
  | some path =>
    obtain ⟨hst, hinit⟩ := save_resolvable hpath hsave
    subst hst
    obtain ⟨hi1, hi2, hi3⟩ := initialize_config_ids hinit
    have hpq : configPathOf c' c'.level = some path := by
      rw [hi1, configPathOf_congr hi2 hi3, hpath]
    rw [show get_config
        (st.write path ((levelDict c).filter (fun kv => truthy kv.2))) c' c'.level =
        (levelDict c).filter (fun kv => truthy kv.2) from
      get_config_write_self c'.level hpq]
    exact assocFind?_filter_none hnd hm hv

/-- C7 witness: a system-level state holding the falsy key dead; after save,
the fresh read from storage has no binding for dead. -/
theorem c7_saved_storage_has_no_falsy_keys_witness :
    save trivialProvider emptyStorage strippingState = some strippingSaved ∧
    ("dead", Val.vnull) ∈ levelDict strippingState ∧
    truthy Val.vnull = false ∧
    assocFind?
      (get_config strippingSaved.1 strippingSaved.2 strippingSaved.2.level)
      "dead" = none := by
  have h : save trivialProvider emptyStorage strippingState = some strippingSaved := rfl
  have hnd : NodupKeys (levelDict strippingState) := by
    unfold NodupKeys
    decide
  have hm : ("dead", Val.vnull) ∈ levelDict strippingState :=
    show ("dead", Val.vnull) ∈
        [("dead", Val.vnull), ("system", Val.vdict [("a", Val.vstr "1")])] from
      List.mem_cons_self _ _
  exact ⟨h, hm, rfl, c7_saved_storage_has_no_falsy_keys h hnd hm rfl⟩

/-- C2 as amended: after save on a resolvable path, a key stripped as falsy
is absent from the persisted document, but the reloaded in-memory raw layer
keeps it with its pre-strip value whenever it is not one of the consulted
section names, because initialize_config merges the file into the existing
in-memory mapping instead of replacing it. -/
theorem c2_save_reload_amended {p : Provider} {st : Storage} {c : LutrisConfig}
    {st' : Storage} {c' : LutrisConfig} {path : ConfigPath} {k : String} {v : Val}
    (hpath : configPathOf c c.level = some path)
    (hsave : save p st c = some (st', c'))
    (hnd : NodupKeys (levelDict c)) (hm : (k, v) ∈ levelDict c)
    (hv : truthy v = false)
    (hk1 : k ≠ "system") (hk2 : k ≠ "game")
    (hk3 : ∀ s, c.runner_slug = some s → k ≠ s) :
    assocFind? (levelDict c') k = some v ∧
    assocFind? ((st'.files path).getD []) k = none := by
  obtain ⟨hst, hinit⟩ := save_resolvable hpath hsave
  subst hst
  have hfiltered :
      assocFind? ((levelDict c).filter (fun kv => truthy kv.2)) k = none :=
    assocFind?_filter_none hnd hm hv
  have hkf : k ∉ assocKeys ((levelDict c).filter (fun kv => truthy kv.2)) :=
    (assocFind?_eq_none_iff _ _).mp hfiltered
  constructor
  · obtain ⟨c2, hucc, hraw⟩ := initialize_config_decomp hinit
    obtain ⟨hw1, hw2, hw3, hwgl, hwrl, hwsl, _, _, _⟩ := update_raw_config_preserves hraw
    obtain ⟨hu1, hu2, hu3, husl, hurl, hugl⟩ := update_cascaded_config_preserves hucc
    have hlv : c'.level = c.level := by rw [hw1, hu1]; rfl
    cases hl : c.level
    case SYSTEM =>
      have hldc : levelDict c = c.system_level := by unfold levelDict; rw [hl]
      have hld : levelDict c' = c'.system_level := by unfold levelDict; rw [hlv, hl]
      rw [hl] at hpath
      rw [hld, hwsl, husl k hk1]
      show assocFind?
        (assocUpdate c.system_level
          (get_config (st.write path ((levelDict c).filter (fun kv => truthy kv.2)))
            c .SYSTEM)) k = some v
      rw [get_config_write_self .SYSTEM hpath,
        assocFind?_update_not_mem _ hkf]
      exact assocFind?_of_mem (hldc ▸ hnd) (hldc ▸ hm)
    case RUNNER =>
      have hldc : levelDict c = c.runner_level := by unfold levelDict; rw [hl]
      have hld : levelDict c' = c'.runner_level := by unfold levelDict; rw [hlv, hl]
      rw [hl] at hpath
      rw [hld, hwrl, hurl k hk1 hk3]
      show assocFind?
        (assocUpdate c.runner_level
          (get_config (st.write path ((levelDict c).filter (fun kv => truthy kv.2)))
            c .RUNNER)) k = some v
      rw [get_config_write_self .RUNNER hpath,
        assocFind?_update_not_mem _ hkf]
      exact assocFind?_of_mem (hldc ▸ hnd) (hldc ▸ hm)
    case GAME =>
      have hldc : levelDict c = c.game_level := by unfold levelDict; rw [hl]
      have hld : levelDict c' = c'.game_level := by unfold levelDict; rw [hlv, hl]
      rw [hl] at hpath
      rw [hld, hwgl, hugl k hk1 hk2 hk3]
      show assocFind?
        (assocUpdate c.game_level
          (get_config (st.write path ((levelDict c).filter (fun kv => truthy kv.2)))
            c .GAME)) k = some v
      rw [get_config_write_self .GAME hpath,
        assocFind?_update_not_mem _ hkf]
      exact assocFind?_of_mem (hldc ▸ hnd) (hldc ▸ hm)
  · rw [storage_write_read]
    exact hfiltered

/-- C2 witness: the resolver constructed over junkStorage holds the falsy
section junk; after save, junk is gone from storage but still present in the
reloaded in-memory raw layer. -/
theorem c2_save_reload_amended_witness :
    save trivialProvider junkStorage junkState = some junkSaved ∧
    ("junk", Val.vdict []) ∈ levelDict junkState ∧
    truthy (Val.vdict []) = false ∧
    assocFind? (levelDict junkSaved.2) "junk" = some (.vdict []) ∧
    assocFind? ((junkSaved.1.files .systemPath).getD []) "junk" = none := by
  have hpath : configPathOf junkState junkState.level = some .systemPath := rfl
  have hsave : save trivialProvider junkStorage junkState = some junkSaved := rfl
  have hnd : NodupKeys (levelDict junkState) := by
    unfold NodupKeys
    decide
  have hm : ("junk", Val.vdict []) ∈ levelDict junkState :=
    show ("junk", Val.vdict []) ∈ [("junk", Val.vdict []), ("system", Val.vdict [])] from
      List.mem_cons_self _ _
  have hk3 : ∀ s, junkState.runner_slug = some s → "junk" ≠ s := by
    intro s hs
    rw [show junkState.runner_slug = none from rfl] at hs
    cases hs
  obtain ⟨w1, w2⟩ := c2_save_reload_amended hpath hsave hnd hm rfl
    (by decide) (by decide) hk3
  exact ⟨hsave, hm, rfl, w1, w2⟩

/-- C4 as amended: for any value, truthy or falsy, present in the current
raw-layer section of a resolver with a resolvable path, saving and then
constructing a fresh resolver against the same identifiers yields the same
value in the corresponding cascaded view.  Only whole sections that are
falsy (empty or null) are dropped on save, never individual entries inside a
non-empty section. -/
theorem c4_roundtrip_amended {p : Provider} {st : Storage} {c : LutrisConfig}
    {st' : Storage} {c' c'' : LutrisConfig} {path : ConfigPath} {sec k : String}
    {sd : Dict} {v : Val}
    (hpath : configPathOf c c.level = some path)
    (hsec : currentSectionName c = some sec)
    (hfind : assocFind? (levelDict c) sec = some (.vdict sd))
    (hnd : NodupKeys (levelDict c)) (hndsd : NodupKeys sd)
    (hm : (k, v) ∈ sd)
    (hsave : save p st c = some (st', c'))
    (hnew : LutrisConfig.new p st' c.runner_slug c.game_config_id (some c.level) =
      some c'') :
    assocFind? (currentCascaded c'') k = some v := by
  obtain ⟨id, slug, lvl, gl, rl, sl, gc, rc, sc, rgc, rrc, rsc, rawc⟩ := c
  obtain ⟨hst, _⟩ := save_resolvable hpath hsave
  subst hst
  have hndf : NodupKeys ((levelDict
      ⟨id, slug, lvl, gl, rl, sl, gc, rc, sc, rgc, rrc, rsc, rawc⟩).filter
      (fun kv => truthy kv.2)) := nodupKeys_filter _ hnd
  have htr : truthy (Val.vdict sd) = true := by
    cases sd with
    | nil => cases hm
    | cons hd tl => rfl
  have hsecf : assocFind? ((levelDict
      ⟨id, slug, lvl, gl, rl, sl, gc, rc, sc, rgc, rrc, rsc, rawc⟩).filter
      (fun kv => truthy kv.2)) sec = some (.vdict sd) :=
    assocFind?_filter_some hfind htr
  cases lvl
  case SYSTEM =>
    have hse : some "system" = some sec := hsec
    cases hse
    have hpe : some ConfigPath.systemPath = some path := hpath
    cases hpe
    have hnew' : initialize_config p
        (Storage.write st .systemPath ((levelDict
          ⟨id, slug, .SYSTEM, gl, rl, sl, gc, rc, sc, rgc, rrc, rsc, rawc⟩).filter
          (fun kv => truthy kv.2)))
        (initialState slug id .SYSTEM) = some c'' := hnew
    obtain ⟨c2, hucc, hraw⟩ := initialize_config_decomp hnew'
    obtain ⟨hi1, hi2, hi3⟩ := initialize_config_ids hnew'
    obtain ⟨hw1, hw2, hw3, hwgl, hwrl, hwsl, hwgc, hwrc, hwsc⟩ :=
      update_raw_config_preserves hraw
    have hload : (loadLevels
        (Storage.write st .systemPath ((levelDict
          ⟨id, slug, .SYSTEM, gl, rl, sl, gc, rc, sc, rgc, rrc, rsc, rawc⟩).filter
          (fun kv => truthy kv.2)))
        (initialState slug id .SYSTEM)).system_level =
        (levelDict ⟨id, slug, .SYSTEM, gl, rl, sl, gc, rc, sc, rgc, rrc, rsc,
          rawc⟩).filter (fun kv => truthy kv.2) := by
      show assocUpdate [] (get_config _ (initialState slug id .SYSTEM) .SYSTEM) = _
      rw [get_config_write_self .SYSTEM rfl]
      exact assocUpdate_nil hndf
    have hsecl : assocFind? (loadLevels
        (Storage.write st .systemPath ((levelDict
          ⟨id, slug, .SYSTEM, gl, rl, sl, gc, rc, sc, rgc, rrc, rsc, rawc⟩).filter
          (fun kv => truthy kv.2)))
        (initialState slug id .SYSTEM)).system_level "system" =
        some (.vdict sd) := by
      rw [hload]
      exact hsecf
    have hcfg := ucc_system_config_system rfl hsecl hucc
    have hcl : c''.level = ConfigLevel.SYSTEM := hi1
    have hcc : currentCascaded c'' = c''.system_config := by
      unfold currentCascaded
      rw [hcl]
    rw [hcc, hwsc, hcfg]
    exact assocFind?_update_of_mem _ hndsd hm
  case RUNNER =>
    have hse : slug = some sec := hsec
    subst hse
    have hpe : some (ConfigPath.runnerPath sec) = some path := hpath
    cases hpe
    have hnew' : initialize_config p
        (Storage.write st (.runnerPath sec) ((levelDict
          ⟨id, some sec, .RUNNER, gl, rl, sl, gc, rc, sc, rgc, rrc, rsc,
            rawc⟩).filter (fun kv => truthy kv.2)))
        (initialState (some sec) id .RUNNER) = some c'' := hnew
    obtain ⟨c2, hucc, hraw⟩ := initialize_config_decomp hnew'
    obtain ⟨hi1, hi2, hi3⟩ := initialize_config_ids hnew'
    obtain ⟨hw1, hw2, hw3, hwgl, hwrl, hwsl, hwgc, hwrc, hwsc⟩ :=
      update_raw_config_preserves hraw
    have hload : (loadLevels
        (Storage.write st (.runnerPath sec) ((levelDict
          ⟨id, some sec, .RUNNER, gl, rl, sl, gc, rc, sc, rgc, rrc, rsc,
            rawc⟩).filter (fun kv => truthy kv.2)))
        (initialState (some sec) id .RUNNER)).runner_level =
        (levelDict ⟨id, some sec, .RUNNER, gl, rl, sl, gc, rc, sc, rgc, rrc, rsc,
          rawc⟩).filter (fun kv => truthy kv.2) := by
      show assocUpdate [] (get_config _ (initialState (some sec) id .RUNNER) .RUNNER) = _
      rw [get_config_write_self .RUNNER
        (show configPathOf (initialState (some sec) id .RUNNER) .RUNNER =
          some (.runnerPath sec) from rfl)]
      exact assocUpdate_nil hndf
    have hsecl : assocFind? (loadLevels
        (Storage.write st (.runnerPath sec) ((levelDict
          ⟨id, some sec, .RUNNER, gl, rl, sl, gc, rc, sc, rgc, rrc, rsc,
            rawc⟩).filter (fun kv => truthy kv.2)))
        (initialState (some sec) id .RUNNER)).runner_level sec =
        some (.vdict sd) := by
      rw [hload]
      exact hsecf
    have hcfg := ucc_runner_config_runner rfl rfl hsecl hucc
    have hcl : c''.level = ConfigLevel.RUNNER := hi1
    have hcc : currentCascaded c'' = c''.runner_config := by
      unfold currentCascaded
      rw [hcl]
    rw [hcc, hwrc, hcfg]
    exact assocFind?_update_of_mem _ hndsd hm
  case GAME =>
    have hse : some "game" = some sec := hsec
    cases hse
    cases id with
    | none =>
      have hpe : (none : Option ConfigPath) = some path := hpath
      cases hpe
    | some gid =>
      have hpe : some (ConfigPath.gamePath gid) = some path := hpath
      cases hpe
      have hnew' : initialize_config p
          (Storage.write st (.gamePath gid) ((levelDict
            ⟨some gid, slug, .GAME, gl, rl, sl, gc, rc, sc, rgc, rrc, rsc,
              rawc⟩).filter (fun kv => truthy kv.2)))
          (initialState slug (some gid) .GAME) = some c'' := hnew
      obtain ⟨c2, hucc, hraw⟩ := initialize_config_decomp hnew'
      obtain ⟨hi1, hi2, hi3⟩ := initialize_config_ids hnew'
      obtain ⟨hw1, hw2, hw3, hwgl, hwrl, hwsl, hwgc, hwrc, hwsc⟩ :=
        update_raw_config_preserves hraw
      have hc2l : c2.level = ConfigLevel.GAME := by
        rw [(update_cascaded_config_preserves hucc).1]
        rfl
      have hslug : c2.runner_slug.isSome := update_raw_config_game_slug hraw hc2l
      have hc2s : c2.runner_slug = slug := by
        rw [(update_cascaded_config_preserves hucc).2.1]
        rfl
      rw [hc2s] at hslug
      cases slug with
      | none => cases hslug
      | some s =>
        have hload : (loadLevels
            (Storage.write st (.gamePath gid) ((levelDict
              ⟨some gid, some s, .GAME, gl, rl, sl, gc, rc, sc, rgc, rrc, rsc,
                rawc⟩).filter (fun kv => truthy kv.2)))
            (initialState (some s) (some gid) .GAME)).game_level =
            (levelDict ⟨some gid, some s, .GAME, gl, rl, sl, gc, rc, sc, rgc, rrc,
              rsc, rawc⟩).filter (fun kv => truthy kv.2) := by
          show assocUpdate []
            (get_config _ (initialState (some s) (some gid) .GAME) .GAME) = _
          rw [get_config_write_self .GAME
            (show configPathOf (initialState (some s) (some gid) .GAME) .GAME =
              some (.gamePath gid) from rfl)]
          exact assocUpdate_nil hndf
        have hsecl : assocFind? (loadLevels
            (Storage.write st (.gamePath gid) ((levelDict
              ⟨some gid, some s, .GAME, gl, rl, sl, gc, rc, sc, rgc, rrc, rsc,
                rawc⟩).filter (fun kv => truthy kv.2)))
            (initialState (some s) (some gid) .GAME)).game_level "game" =
            some (.vdict sd) := by
          rw [hload]
          exact hsecf
        have hcfg := (ucc_game_configs rfl rfl hucc).1 sd hsecl
        have hcl : c''.level = ConfigLevel.GAME := hi1
        have hcc : currentCascaded c'' = c''.game_config := by
          unfold currentCascaded
          rw [hcl]
        rw [hcc, hwgc, hcfg]
        exact assocFind?_update_of_mem _ hndsd hm

/-- C4 witness: a system-level resolver holding mykey mapped to val; after
save and fresh construction, the cascaded system view still maps mykey to
val. -/
theorem c4_roundtrip_amended_witness :
    currentSectionName roundtripState = some "system" ∧
    assocFind? (levelDict roundtripState) "system" =
      some (.vdict [("mykey", .vstr "val")]) ∧
    save trivialProvider emptyStorage roundtripState = some roundtripSaved ∧
    LutrisConfig.new trivialProvider roundtripSaved.1 none none (some .SYSTEM) =
      some roundtripFresh ∧
    assocFind? (currentCascaded roundtripFresh) "mykey" = some (.vstr "val") := by
  have hpath : configPathOf roundtripState roundtripState.level =
      some .systemPath := rfl
  have hsec : currentSectionName roundtripState = some "system" := rfl
  have hfind : assocFind? (levelDict roundtripState) "system" =
      some (.vdict [("mykey", .vstr "val")]) := rfl
  have hnd : NodupKeys (levelDict roundtripState) := by
    unfold NodupKeys
    decide
  have hndsd : NodupKeys [("mykey", Val.vstr "val")] := by
    unfold NodupKeys
    decide
  have hm : ("mykey", Val.vstr "val") ∈ [("mykey", Val.vstr "val")] :=
    List.mem_singleton.mpr rfl
  have hsave : save trivialProvider emptyStorage roundtripState =
      some roundtripSaved := rfl
  have hnew : LutrisConfig.new trivialProvider roundtripSaved.1
      roundtripState.runner_slug roundtripState.game_config_id
      (some roundtripState.level) = some roundtripFresh := rfl
  exact ⟨hsec, hfind, hsave, hnew,
    c4_roundtrip_amended hpath hsec hfind hnd hndsd hm hsave hnew⟩

end Lutris
